import Mathlib

/-!
Verification of the `PyFileWatcher` directory-polling watcher
(`py_file_watcher.py`) against its natural-language specification.

The development shallowly embeds the program:

* Python `re` patterns are embedded as a regular-expression AST `Regex` with
  Brzozowski-derivative matching; `re.match(p, s)` is truthy exactly when `p`
  matches some prefix of `s`, embedded as `reMatch`.
* Python dicts (the snapshot, insertion ordered, unique keys) are embedded as
  association lists `Snap` with `dictLookup` / `dictInsert` (update in place,
  append when fresh), matching Python dict semantics.
* The filesystem visible through `os` is embedded as `FS`: a working
  directory, a finite map of directory paths to mtimes and a finite map of
  file paths to mtimes, all absolute strings.  `os.path.join` is `osPathJoin`,
  relative-path resolution against the working directory is `resolve`,
  `os.stat(...).st_mtime` is `stat` (`none` models the raised `OSError`),
  `os.path.exists` is `pexists` (Python implements it via `stat`),
  `os.listdir` is `listdir`.  Timestamps are modelled as `Nat`; the claims
  under study only compare timestamps for (in)equality, never arithmetically,
  so the float representation is irrelevant.
* Exceptions are `Except Unit`; callbacks are modelled by the ordered list of
  dispatched `Event`s (each `threading.Thread(...).start()` appends one event;
  execution concurrency of the callbacks themselves is not modelled).
* The watch loop is driven by a trace: one `(stopFlag, fsDel, fsMod, fsNew)`
  tuple per iteration, giving the `stop_watching` value observed at the top of
  the iteration and the filesystem state seen by each of the three detection
  steps (the filesystem may change between steps, which is exactly the race
  the spec discusses).  `time.sleep(1)` and the progress `print` are pure
  timing/IO and have no observable effect on the state, so they are not
  modelled.
-/

/-! ## Regular expressions (embedding of Python `re` patterns) -/

/-- Regular-expression AST standing for a syntactically valid Python `re`
pattern.  A syntactically invalid pattern string has no `Regex`; call sites
that may receive one take an `Option Regex` (`none` = `re.error` on compile). -/
inductive Regex where
  | emp : Regex
  | eps : Regex
  | chr : Char → Regex
  | alt : Regex → Regex → Regex
  | cat : Regex → Regex → Regex
  | star : Regex → Regex
deriving DecidableEq, Repr

/-- Does the pattern accept the empty string? -/
def nullable : Regex → Bool
  | .emp => false
  | .eps => true
  | .chr _ => false
  | .alt r₁ r₂ => nullable r₁ || nullable r₂
  | .cat r₁ r₂ => nullable r₁ && nullable r₂
  | .star _ => true

/-- Brzozowski derivative of a pattern by one character. -/
def rderiv : Regex → Char → Regex
  | .emp, _ => .emp
  | .eps, _ => .emp
  | .chr c, a => if c = a then .eps else .emp
  | .alt r₁ r₂, a => .alt (rderiv r₁ a) (rderiv r₂ a)
  | .cat r₁ r₂, a =>
      if nullable r₁ then .alt (.cat (rderiv r₁ a) r₂) (rderiv r₂ a)
      else .cat (rderiv r₁ a) r₂
  | .star r, a => .cat (rderiv r a) (.star r)

/-- The pattern matches the whole character list. -/
def matchesFull (r : Regex) (l : List Char) : Bool :=
  nullable (l.foldl rderiv r)

/-- The pattern matches some (possibly empty) initial segment of the list:
the truthiness of Python's `re.match(pattern, s)`. -/
def reMatchL : Regex → List Char → Bool
  | r, [] => nullable r
  | r, c :: cs => nullable r || reMatchL (rderiv r c) cs

/-- Truthiness of `re.match(pattern, s)` on a string. -/
def reMatch (r : Regex) (s : String) : Bool :=
  reMatchL r s.toList

/-! ## Snapshot dictionaries (embedding of the Python dict `files`) -/

/-- The watcher snapshot: file path (or file name, see `get_files`) to
last-known modification timestamp, in insertion order like a Python dict. -/
abbrev Snap := List (String × Nat)

/-- `files.get(key)` / `key in files` support: first matching entry. -/
def dictLookup : Snap → String → Option Nat
  | [], _ => none
  | (k, v) :: rest, key => if k = key then some v else dictLookup rest key

/-- `files[key] = val`: update the existing entry in place, else append. -/
def dictInsert : Snap → String → Nat → Snap
  | [], key, val => [(key, val)]
  | (k, v) :: rest, key, val =>
      if k = key then (key, val) :: rest else (k, v) :: dictInsert rest key val

/-! ## Filesystem model (embedding of the `os` calls the program makes) -/

/-- State of the filesystem as visible to the watcher: the process working
directory plus finite maps from absolute paths to mtimes for directories and
regular files. -/
structure FS where
  cwd : String
  dirs : List (String × Nat)
  files : List (String × Nat)
deriving Repr

/-- Is the character list an initial segment of the second list? -/
def strStarts : List Char → List Char → Bool
  | [], _ => true
  | _ :: _, [] => false
  | a :: as, b :: bs => a = b && strStarts as bs

/-- Does the character list end in a path separator? -/
def endsSlash (l : List Char) : Bool :=
  match l.getLast? with
  | some c => c = '/'
  | none => false

/-- Is the path absolute (starts with the separator)? -/
def isAbsPath (p : String) : Bool :=
  match p.toList with
  | '/' :: _ => true
  | _ => false

/-- `os.path.join(a, b)` for the shapes of input the program produces
(POSIX rules: an absolute second component wins, a lone first component gains
one separator). -/
def osPathJoin (a b : String) : String :=
  if isAbsPath b then b
  else if a.toList.isEmpty then b
  else if endsSlash a.toList then a ++ b
  else a ++ "/" ++ b

/-- Resolution of a possibly relative path against the working directory, as
the OS does for every `os` call the program makes. -/
def resolve (fs : FS) (p : String) : String :=
  if isAbsPath p then p else osPathJoin fs.cwd p

/-- `os.stat(p).st_mtime`; `none` models the raised `OSError` for a path that
names neither a file nor a directory. -/
def stat (fs : FS) (p : String) : Option Nat :=
  match dictLookup fs.files (resolve fs p) with
  | some m => some m
  | none => dictLookup fs.dirs (resolve fs p)

/-- `os.path.exists(p)` (Python implements it by calling `os.stat`). -/
def pexists (fs : FS) (p : String) : Bool :=
  (stat fs p).isSome

/-- `os.path.isdir(p)`. -/
def isdir (fs : FS) (p : String) : Bool :=
  (dictLookup fs.dirs (resolve fs p)).isSome

/-- If `k` is a path directly inside directory `base`, its entry name. -/
def childName (base k : String) : Option String :=
  let b := base.toList
  let pre := if endsSlash b then b else b ++ ['/']
  let kl := k.toList
  if strStarts pre kl then
    let n := kl.drop pre.length
    if n.isEmpty then none
    else if n.contains '/' then none
    else some (String.mk n)
  else none

/-- `os.listdir(p)`: names of the entries directly inside the directory;
`none` models the raised `OSError` when `p` is not a directory. -/
def listdir (fs : FS) (p : String) : Option (List String) :=
  if isdir fs p then
    some ((fs.files.map Prod.fst ++ fs.dirs.map Prod.fst).filterMap
      (childName (resolve fs p)))
  else none

/-! ## `PyFileWatcher.__init__` -/

/-- The distinct construction failures of the spec's error taxonomy.  In the
source, `DirectoryNotFound` and `NotADirectory` are `WatchDirectoryError`s
with distinct messages (lines 30-33) and `InvalidPattern` is the `re.error`
that `re.match` raises on a syntactically invalid pattern (line 34),
propagating uncaught out of `__init__`.  Line 35's
`WatchDirectoryError("File pattern ... is not valid")`, raised when a valid
pattern merely fails to match the empty string, is also mapped to
`invalidPattern`, since that is the construction-time pattern failure of the
spec's taxonomy. -/
inductive InitError where
  | directoryNotFound : InitError
  | notADirectory : InitError
  | invalidPattern : InitError
deriving DecidableEq, Repr

/-- `PyFileWatcher.__init__` (lines 30-36): the three validation checks in
order.  `file_pattern = none` stands for a syntactically invalid pattern
string, whose compilation inside `re.match(file_pattern, "")` raises
`re.error`.  For a valid pattern, `re.match(file_pattern, "")` is truthy
exactly when the pattern matches the empty string, i.e. when it is
`nullable`; `if not re.match(...)` then raises. -/
def pyFileWatcherInit (fs : FS) (dir_path : String) (file_pattern : Option Regex) :
    Except InitError Unit :=
  if pexists fs dir_path = false then .error .directoryNotFound
  else if isdir fs dir_path = false then .error .notADirectory
  else
    match file_pattern with
    | none => .error .invalidPattern
    | some r => if nullable r = false then .error .invalidPattern else .ok ()

/-! ## The four worker methods -/

/-- Loop body of `get_files` (lines 63-68) over the listing.  Note the key
stored is the bare entry name `n` (line 68: `files[file_name] = ...`), while
the path that is statted is the joined `file_path` (line 66). -/
def get_files_go (fs : FS) (dir : String) (pat : Regex) :
    List String → Snap → Except Unit Snap
  | [], files => .ok files
  | n :: ns, files =>
      if reMatch pat n then
        match stat fs (osPathJoin dir n) with
        | none => .error ()
        | some m => get_files_go fs dir pat ns (dictInsert files n m)
      else get_files_go fs dir pat ns files

/-- `get_files` (lines 56-69): the initial scan seeding the snapshot. -/
def get_files (fs : FS) (dir : String) (pat : Regex) : Except Unit Snap :=
  match listdir fs dir with
  | none => .error ()
  | some names => get_files_go fs dir pat names []

/-- `check_for_deleted_files` (lines 71-81).  The source iterates over
`list(files.items())` (a stable copy) and deletes the current key from the
dict when the path no longer exists; with a dict's unique keys this is
exactly: keep the entries whose path exists, and emit one deleted event per
removed entry, in iteration order. -/
def check_for_deleted_files (fs : FS) (files : Snap) : Snap × List String :=
  (files.filter fun e => pexists fs e.1,
   (files.filter fun e => !pexists fs e.1).map Prod.fst)

/-- `check_for_modified_files` (lines 83-95).  The source iterates over a
stable copy, stats every remaining path (raising if it cannot be read), and
on a timestamp inequality writes the new timestamp back and dispatches the
modified callback.  Events dispatched before a later raise are kept; the
snapshot is lost when the exception propagates (`Except.error`). -/
def check_for_modified_files (fs : FS) : Snap → List String × Except Unit Snap
  | [] => ([], .ok [])
  | (k, t) :: rest =>
      match stat fs k with
      | none => ([], .error ())
      | some m =>
          let p := check_for_modified_files fs rest
          if m = t then (p.1, p.2.map fun s => (k, t) :: s)
          else (k :: p.1, p.2.map fun s => (k, m) :: s)

/-- Loop body of `check_for_new_files` (lines 103-110) over the listing: for
a matching name whose joined path is not yet a snapshot key, stat it, insert
it and dispatch the created callback. -/
def check_for_new_files_go (fs : FS) (dir : String) (pat : Regex) :
    List String → Snap → List String × Except Unit Snap
  | [], files => ([], .ok files)
  | n :: ns, files =>
      if reMatch pat n then
        let fp := osPathJoin dir n
        if (dictLookup files fp).isSome then check_for_new_files_go fs dir pat ns files
        else
          match stat fs fp with
          | none => ([], .error ())
          | some m =>
              let p := check_for_new_files_go fs dir pat ns (dictInsert files fp m)
              (fp :: p.1, p.2)
      else check_for_new_files_go fs dir pat ns files

/-- `check_for_new_files` (lines 97-110): fresh directory listing, then the
per-name loop. -/
def check_for_new_files (fs : FS) (dir : String) (pat : Regex) (files : Snap) :
    List String × Except Unit Snap :=
  match listdir fs dir with
  | none => ([], .error ())
  | some names => check_for_new_files_go fs dir pat names files

/-! ## The watch loop -/

/-- One dispatched callback, with the path argument it was dispatched with. -/
inductive Event where
  | deleted : String → Event
  | modified : String → Event
  | created : String → Event
deriving DecidableEq, Repr

/-- One iteration of the `watch` loop body after the sleep (lines 51-53):
deletion detection, then modification detection, then creation detection, in
that order, each mutating the same snapshot in place.  Each step reads the
filesystem at its own moment (`fD`, `fM`, `fN`); an unchanged filesystem is
the special case `fD = fM = fN`.  The result is the ordered list of
dispatched events and either the updated snapshot or the propagated
exception. -/
def runCycle (fD fM fN : FS) (dir : String) (pat : Regex) (s : Snap) :
    List Event × Except Unit Snap :=
  let d := check_for_deleted_files fD s
  match check_for_modified_files fM d.1 with
  | (mevs, Except.error e) =>
      (d.2.map Event.deleted ++ mevs.map Event.modified, Except.error e)
  | (mevs, Except.ok s2) =>
      match check_for_new_files fN dir pat s2 with
      | (cevs, Except.error e) =>
          (d.2.map Event.deleted ++ mevs.map Event.modified ++
            cevs.map Event.created, Except.error e)
      | (cevs, Except.ok s3) =>
          (d.2.map Event.deleted ++ mevs.map Event.modified ++
            cevs.map Event.created, Except.ok s3)

/-- The `while not self.stop_watching` loop of `watch` (lines 48-53), driven
by a trace with one entry per potential iteration: the `stop_watching` value
observed at the top of the iteration and the filesystem states seen by the
three detection steps.  Returns the number of iterations whose body ran, the
events dispatched in order, and the final snapshot or the propagated
exception. -/
def watchLoop (dir : String) (pat : Regex) :
    List (Bool × FS × FS × FS) → Snap → Nat × List Event × Except Unit Snap
  | [], s => (0, [], Except.ok s)
  | (stopf, fD, fM, fN) :: rest, s =>
      if stopf then (0, [], Except.ok s)
      else
        match runCycle fD fM fN dir pat s with
        | (evs, Except.error e) => (1, evs, Except.error e)
        | (evs, Except.ok s1) =>
            let r := watchLoop dir pat rest s1
            (r.1 + 1, evs ++ r.2.1, r.2.2)

/-- `watch` (lines 43-53): seed the snapshot with `get_files`, then run the
loop.  `fs0` is the filesystem state during the initial scan. -/
def watch (dir : String) (pat : Regex) (fs0 : FS)
    (trace : List (Bool × FS × FS × FS)) : Nat × List Event × Except Unit Snap :=
  match get_files fs0 dir pat with
  | Except.error e => (0, [], Except.error e)
  | Except.ok s0 => watchLoop dir pat trace s0

/-! ## Spec-side definition for claim C1's right-hand side -/

/-- Modelled from the spec's words, for comparison with the code: "the set of
matching files that currently exist in the watched directory", represented as
the spec's snapshot keys ("paths consistently joined with the watched
directory"): the joined path of every listed entry name that satisfies the
pattern. -/
def specMatchingFiles (fs : FS) (dir : String) (pat : Regex) : List String :=
  match listdir fs dir with
  | none => []
  | some names => (names.filter fun n => reMatch pat n).map (osPathJoin dir)

/-! ## Concrete fixtures -/

/-- A filesystem whose working directory is the watched directory `/w`,
holding one matching file `/w/a.txt` with mtime 5. -/
def fsW : FS :=
  { cwd := "/w", dirs := [("/w", 0)], files := [("/w/a.txt", 5)] }

/-- A filesystem with the watched directory `/w` empty and the working
directory at the root. -/
def fsE : FS :=
  { cwd := "/", dirs := [("/w", 0)], files := [] }

/-- A filesystem where `/f` is a regular file, not a directory. -/
def fsF : FS :=
  { cwd := "/", dirs := [("/", 0)], files := [("/f", 7)] }

/-- The pattern `a*`: syntactically valid, nullable, matches a prefix of
every name. -/
def patAll : Regex := .star (.chr 'a')

/-! ## Dictionary lemmas -/

/-- Inserting at a key that is absent appends the new entry. -/
theorem dictInsert_of_lookup_none (files : Snap) (key : String) (val : Nat)
    (h : dictLookup files key = none) :
    dictInsert files key val = files ++ [(key, val)] := by
  induction files with
  | nil => rfl
  | cons e rest ih =>
      obtain ⟨k, v⟩ := e
      by_cases hk : k = key
      · simp [dictLookup, hk] at h
      · simp [dictLookup, hk] at h
        simp [dictInsert, hk, ih h]

/-- Insertion preserves membership of entries at other keys when the inserted
key is absent. -/
theorem mem_dictInsert_of_mem (files : Snap) (key : String) (val : Nat)
    (e : String × Nat) (h : dictLookup files key = none) (he : e ∈ files) :
    e ∈ dictInsert files key val := by
  rw [dictInsert_of_lookup_none files key val h]
  exact List.mem_append_left _ he

/-- Insertion can only make lookups more defined. -/
theorem dictLookup_isSome_dictInsert (files : Snap) (key : String) (val : Nat)
    (x : String) (h : (dictLookup files x).isSome = true) :
    (dictLookup (dictInsert files key val) x).isSome = true := by
  induction files with
  | nil => simp [dictLookup] at h
  | cons e rest ih =>
      obtain ⟨k, v⟩ := e
      by_cases hk : k = key
      · subst hk
        by_cases hx : k = x
        · simp [dictInsert, dictLookup, hx]
        · simp [dictLookup, hx] at h
          simp [dictInsert, dictLookup, hx, h]
      · by_cases hx : k = x
        · subst hx
          simp [dictInsert, hk, dictLookup]
        · simp [dictLookup, hx] at h
          simp [dictInsert, hk, dictLookup, hx, ih h]

/-- The inserted key is present after insertion. -/
theorem dictLookup_dictInsert_self (files : Snap) (key : String) (val : Nat) :
    (dictLookup (dictInsert files key val) key).isSome = true := by
  induction files with
  | nil => simp [dictInsert, dictLookup]
  | cons e rest ih =>
      obtain ⟨k, v⟩ := e
      by_cases hk : k = key
      · simp [dictInsert, hk, dictLookup]
      · simp [dictInsert, hk, dictLookup, ih]

/-! ## Deletion-step lemmas -/

/-- When every snapshot path exists, the deletion step keeps the snapshot and
dispatches nothing. -/
theorem check_for_deleted_files_id (fs : FS) (s : Snap)
    (h : ∀ e ∈ s, pexists fs e.1 = true) :
    check_for_deleted_files fs s = (s, []) := by
  unfold check_for_deleted_files
  have h₁ : s.filter (fun e => pexists fs e.1) = s := List.filter_eq_self.mpr h
  have h₂ : s.filter (fun e => !pexists fs e.1) = [] := by
    rw [List.filter_eq_nil_iff]
    intro a ha
    simp [h a ha]
  rw [h₁, h₂]
  rfl

/-! ## Modification-step lemmas -/

/-- After a successful modification step, every stored timestamp is the
file's current one. -/
theorem check_for_modified_files_ok_stat (fs : FS) :
    ∀ (s s' : Snap) (evs : List String),
      check_for_modified_files fs s = (evs, .ok s') →
      ∀ k v, (k, v) ∈ s' → stat fs k = some v := by
  intro s
  induction s with
  | nil =>
      intro s' evs h k v hm
      simp [check_for_modified_files] at h
      obtain ⟨-, h2⟩ := h
      subst h2
      simp at hm
  | cons e rest ih =>
      obtain ⟨k₀, t⟩ := e
      intro s' evs h k v hm
      rcases hstat : stat fs k₀ with - | m
      · simp [check_for_modified_files, hstat] at h
      · rcases hrec : check_for_modified_files fs rest with ⟨evs₀, r₀⟩
        simp only [check_for_modified_files, hstat, hrec] at h
        rcases r₀ with e₀ | s₀
        · by_cases hmt : m = t <;> simp [hmt, Except.map] at h
        · by_cases hmt : m = t
          · subst hmt
            simp [Except.map] at h
            obtain ⟨-, h2⟩ := h
            subst h2
            rcases List.mem_cons.mp hm with h3 | h3
            · obtain ⟨h4, h5⟩ := Prod.mk.injEq .. ▸ h3
              subst h4
              subst h5
              exact hstat
            · exact ih s₀ evs₀ hrec k v h3
          · simp [hmt, Except.map] at h
            obtain ⟨-, h2⟩ := h
            subst h2
            rcases List.mem_cons.mp hm with h3 | h3
            · obtain ⟨h4, h5⟩ := Prod.mk.injEq .. ▸ h3
              subst h4
              subst h5
              exact hstat
            · exact ih s₀ evs₀ hrec k v h3

/-- When every stored timestamp is already current, the modification step is
a no-op that dispatches nothing. -/
theorem check_for_modified_files_id (fs : FS) :
    ∀ s : Snap, (∀ k v, (k, v) ∈ s → stat fs k = some v) →
      check_for_modified_files fs s = ([], .ok s) := by
  intro s
  induction s with
  | nil => intro _; rfl
  | cons e rest ih =>
      obtain ⟨k₀, t⟩ := e
      intro h
      have hstat : stat fs k₀ = some t := h k₀ t (List.mem_cons_self _ _)
      have hrest := ih fun k v hm => h k v (List.mem_cons_of_mem _ hm)
      simp [check_for_modified_files, hstat, hrest, Except.map]

/-- A snapshot path that cannot be read makes the modification step raise. -/
theorem check_for_modified_files_error (fs : FS) :
    ∀ (s : Snap) (k : String) (t : Nat), (k, t) ∈ s → stat fs k = none →
      (check_for_modified_files fs s).2 = .error () := by
  intro s
  induction s with
  | nil =>
      intro k t hm
      simp at hm
  | cons e rest ih =>
      obtain ⟨k₀, t₀⟩ := e
      intro k t hm hnone
      rcases hstat : stat fs k₀ with - | m
      · simp [check_for_modified_files, hstat]
      · rcases List.mem_cons.mp hm with h3 | h3
        · obtain ⟨h4, -⟩ := Prod.mk.injEq .. ▸ h3
          subst h4
          rw [hstat] at hnone
          cases hnone
        · have herr := ih k t h3 hnone
          rcases hrec : check_for_modified_files fs rest with ⟨evs₀, r₀⟩
          rw [hrec] at herr
          simp at herr
          subst herr
          by_cases hmt : m = t₀ <;>
            simp [check_for_modified_files, hstat, hrec, hmt, Except.map]

/-- Every event the modification step dispatches names a snapshot key. -/
theorem check_for_modified_files_events (fs : FS) :
    ∀ (s : Snap) (x : String), x ∈ (check_for_modified_files fs s).1 →
      x ∈ s.map Prod.fst := by
  intro s
  induction s with
  | nil =>
      intro x hx
      simp [check_for_modified_files] at hx
  | cons e rest ih =>
      obtain ⟨k₀, t⟩ := e
      intro x hx
      rcases hstat : stat fs k₀ with - | m
      · simp [check_for_modified_files, hstat] at hx
      · rcases hrec : check_for_modified_files fs rest with ⟨evs₀, r₀⟩
        simp only [check_for_modified_files, hstat, hrec] at hx
        by_cases hmt : m = t
        · simp [hmt] at hx
          have := ih x (by rw [hrec]; exact hx)
          simp [this]
        · simp [hmt] at hx
          rcases hx with hx | hx
          · simp [hx]
          · have := ih x (by rw [hrec]; exact hx)
            simp [this]

/-! ## Creation-step lemmas -/

/-- The creation loop only adds keys: lookups stay defined. -/
theorem check_for_new_files_go_mono (fs : FS) (dir : String) (pat : Regex) :
    ∀ (ns : List String) (files files' : Snap) (evs : List String) (x : String),
      check_for_new_files_go fs dir pat ns files = (evs, .ok files') →
      (dictLookup files x).isSome = true → (dictLookup files' x).isSome = true := by
  intro ns
  induction ns with
  | nil =>
      intro files files' evs x h hx
      simp [check_for_new_files_go] at h
      obtain ⟨-, h2⟩ := h
      subst h2
      exact hx
  | cons n ns ih =>
      intro files files' evs x h hx
      by_cases hmatch : reMatch pat n
      · by_cases hl : (dictLookup files (osPathJoin dir n)).isSome = true
        · simp only [check_for_new_files_go, hmatch, if_true, hl] at h
          exact ih files files' evs x h hx
        · rcases hstat : stat fs (osPathJoin dir n) with e | m
          · simp only [check_for_new_files_go, hmatch, if_true, hl, hstat] at h
            simp at h
          · rcases hrec : check_for_new_files_go fs dir pat ns
                (dictInsert files (osPathJoin dir n) m) with ⟨evs₁, r₁⟩
            simp only [check_for_new_files_go, hmatch, if_true, hl, hstat, hrec] at h
            obtain ⟨-, h2⟩ := Prod.mk.injEq .. ▸ h
            rw [h2] at hrec
            exact ih _ files' evs₁ x hrec
              (dictLookup_isSome_dictInsert files (osPathJoin dir n) m x hx)
      · simp only [check_for_new_files_go, hmatch, if_false] at h
        exact ih files files' evs x h hx

/-- The creation loop preserves every existing snapshot entry untouched. -/
theorem check_for_new_files_go_mem (fs : FS) (dir : String) (pat : Regex) :
    ∀ (ns : List String) (files files' : Snap) (evs : List String)
      (e : String × Nat),
      check_for_new_files_go fs dir pat ns files = (evs, .ok files') →
      e ∈ files → e ∈ files' := by
  intro ns
  induction ns with
  | nil =>
      intro files files' evs e h he
      simp [check_for_new_files_go] at h
      obtain ⟨-, h2⟩ := h
      subst h2
      exact he
  | cons n ns ih =>
      intro files files' evs e h he
      by_cases hmatch : reMatch pat n
      · by_cases hl : (dictLookup files (osPathJoin dir n)).isSome = true
        · simp only [check_for_new_files_go, hmatch, if_true, hl] at h
          exact ih files files' evs e h he
        · rcases hstat : stat fs (osPathJoin dir n) with u | m
          · simp only [check_for_new_files_go, hmatch, if_true, hl, hstat] at h
            simp at h
          · rcases hrec : check_for_new_files_go fs dir pat ns
                (dictInsert files (osPathJoin dir n) m) with ⟨evs₁, r₁⟩
            simp only [check_for_new_files_go, hmatch, if_true, hl, hstat, hrec] at h
            obtain ⟨-, h2⟩ := Prod.mk.injEq .. ▸ h
            rw [h2] at hrec
            have hnone : dictLookup files (osPathJoin dir n) = none := by
              rcases hcase : dictLookup files (osPathJoin dir n) with - | v
              · rfl
              · rw [hcase] at hl
                simp at hl
            exact ih _ files' evs₁ e hrec
              (mem_dictInsert_of_mem files (osPathJoin dir n) m e hnone he)
      · simp only [check_for_new_files_go, hmatch, if_false] at h
        exact ih files files' evs e h he

/-- After a successful creation loop, every matching listed name's joined
path is a snapshot key. -/
theorem check_for_new_files_go_covers (fs : FS) (dir : String) (pat : Regex) :
    ∀ (ns : List String) (files files' : Snap) (evs : List String),
      check_for_new_files_go fs dir pat ns files = (evs, .ok files') →
      ∀ n ∈ ns, reMatch pat n = true →
        (dictLookup files' (osPathJoin dir n)).isSome = true := by
  intro ns
  induction ns with
  | nil =>
      intro files files' evs h n hn
      simp at hn
  | cons n₀ ns ih =>
      intro files files' evs h n hn hmn
      by_cases hmatch : reMatch pat n₀
      · by_cases hl : (dictLookup files (osPathJoin dir n₀)).isSome = true
        · simp only [check_for_new_files_go, hmatch, if_true, hl] at h
          rcases List.mem_cons.mp hn with h3 | h3
          · subst h3
            exact check_for_new_files_go_mono fs dir pat ns files files' evs
              (osPathJoin dir n) h hl
          · exact ih files files' evs h n h3 hmn
        · rcases hstat : stat fs (osPathJoin dir n₀) with u | m
          · simp only [check_for_new_files_go, hmatch, if_true, hl, hstat] at h
            simp at h
          · rcases hrec : check_for_new_files_go fs dir pat ns
                (dictInsert files (osPathJoin dir n₀) m) with ⟨evs₁, r₁⟩
            simp only [check_for_new_files_go, hmatch, if_true, hl, hstat, hrec] at h
            obtain ⟨-, h2⟩ := Prod.mk.injEq .. ▸ h
            rw [h2] at hrec
            rcases List.mem_cons.mp hn with h3 | h3
            · subst h3
              exact check_for_new_files_go_mono fs dir pat ns _ files' evs₁
                (osPathJoin dir n) hrec
                (dictLookup_dictInsert_self files (osPathJoin dir n) m)
            · exact ih _ files' evs₁ hrec n h3 hmn
      · simp only [check_for_new_files_go, hmatch, if_false] at h
        rcases List.mem_cons.mp hn with h3 | h3
        · subst h3
          rw [hmn] at hmatch
          cases hmatch rfl
        · exact ih files files' evs h n h3 hmn

/-- When every matching listed name's joined path is already a snapshot key,
the creation loop is a no-op that dispatches nothing. -/
theorem check_for_new_files_go_id (fs : FS) (dir : String) (pat : Regex) :
    ∀ (ns : List String) (files : Snap),
      (∀ n ∈ ns, reMatch pat n = true →
        (dictLookup files (osPathJoin dir n)).isSome = true) →
      check_for_new_files_go fs dir pat ns files = ([], .ok files) := by
  intro ns
  induction ns with
  | nil => intro files _; rfl
  | cons n₀ ns ih =>
      intro files h
      by_cases hmatch : reMatch pat n₀
      · have hl : (dictLookup files (osPathJoin dir n₀)).isSome = true :=
          h n₀ (List.mem_cons_self _ _) hmatch
        have hrest := ih files fun n hn hmn => h n (List.mem_cons_of_mem _ hn) hmn
        simp [check_for_new_files_go, hmatch, hl, hrest]
      · have hrest := ih files fun n hn hmn => h n (List.mem_cons_of_mem _ hn) hmn
        simp [check_for_new_files_go, hmatch, hrest]

/-- The creation loop preserves "every stored timestamp is current". -/
theorem check_for_new_files_go_stat (fs : FS) (dir : String) (pat : Regex) :
    ∀ (ns : List String) (files files' : Snap) (evs : List String),
      check_for_new_files_go fs dir pat ns files = (evs, .ok files') →
      (∀ k v, (k, v) ∈ files → stat fs k = some v) →
      ∀ k v, (k, v) ∈ files' → stat fs k = some v := by
  intro ns
  induction ns with
  | nil =>
      intro files files' evs h hinv k v hm
      simp [check_for_new_files_go] at h
      obtain ⟨-, h2⟩ := h
      subst h2
      exact hinv k v hm
  | cons n₀ ns ih =>
      intro files files' evs h hinv k v hm
      by_cases hmatch : reMatch pat n₀
      · by_cases hl : (dictLookup files (osPathJoin dir n₀)).isSome = true
        · simp only [check_for_new_files_go, hmatch, if_true, hl] at h
          exact ih files files' evs h hinv k v hm
        · rcases hstat : stat fs (osPathJoin dir n₀) with u | m
          · simp only [check_for_new_files_go, hmatch, if_true, hl, hstat] at h
            simp at h
          · rcases hrec : check_for_new_files_go fs dir pat ns
                (dictInsert files (osPathJoin dir n₀) m) with ⟨evs₁, r₁⟩
            simp only [check_for_new_files_go, hmatch, if_true, hl, hstat, hrec] at h
            obtain ⟨-, h2⟩ := Prod.mk.injEq .. ▸ h
            rw [h2] at hrec
            have hnone : dictLookup files (osPathJoin dir n₀) = none := by
              rcases hcase : dictLookup files (osPathJoin dir n₀) with - | v'
              · rfl
              · rw [hcase] at hl
                simp at hl
            refine ih _ files' evs₁ hrec ?_ k v hm
            intro k' v' hk'
            rw [dictInsert_of_lookup_none files (osPathJoin dir n₀) m hnone] at hk'
            rcases List.mem_append.mp hk' with h4 | h4
            · exact hinv k' v' h4
            · simp at h4
              obtain ⟨h5, h6⟩ := h4
              subst h5
              subst h6
              exact hstat
      · simp only [check_for_new_files_go, hmatch, if_false] at h
        exact ih files files' evs h hinv k v hm

/-! ## Cycle-level lemmas -/

/-- After a successful cycle against an unchanged filesystem, the snapshot
satisfies the reconciliation invariant: every stored timestamp is current,
and every matching listed name's joined path is a key. -/
theorem runCycle_ok_invariant (fs : FS) (dir : String) (pat : Regex)
    (s s1 : Snap) (evs : List Event)
    (h : runCycle fs fs fs dir pat s = (evs, .ok s1)) :
    (∀ k v, (k, v) ∈ s1 → stat fs k = some v) ∧
    (∃ names, listdir fs dir = some names ∧
      ∀ n ∈ names, reMatch pat n = true →
        (dictLookup s1 (osPathJoin dir n)).isSome = true) := by
  rcases hmod : check_for_modified_files fs (check_for_deleted_files fs s).1
    with ⟨mevs, rm⟩
  rcases rm with em | s2
  · simp only [runCycle, hmod] at h
    simp at h
  · rcases hnew : check_for_new_files fs dir pat s2 with ⟨cevs, rn⟩
    rcases rn with en | s3
    · simp only [runCycle, hmod, hnew] at h
      simp at h
    · simp only [runCycle, hmod, hnew] at h
      obtain ⟨-, h2⟩ := Prod.mk.injEq .. ▸ h
      have h3 : s3 = s1 := by
        cases h2
        rfl
      subst h3
      have hinv2 : ∀ k v, (k, v) ∈ s2 → stat fs k = some v :=
        check_for_modified_files_ok_stat fs _ s2 mevs hmod
      rcases hld : listdir fs dir with u | names
      · rw [check_for_new_files, hld] at hnew
        simp at hnew
      · rw [check_for_new_files, hld] at hnew
        refine ⟨check_for_new_files_go_stat fs dir pat names s2 s3 cevs hnew hinv2,
          names, rfl, ?_⟩
        exact check_for_new_files_go_covers fs dir pat names s2 s3 cevs hnew

/-- A cycle run from a snapshot satisfying the reconciliation invariant, with
the filesystem unchanged, dispatches nothing and keeps the snapshot. -/
theorem runCycle_silent (fs : FS) (dir : String) (pat : Regex) (s1 : Snap)
    (names : List String)
    (hstat : ∀ k v, (k, v) ∈ s1 → stat fs k = some v)
    (hld : listdir fs dir = some names)
    (hcov : ∀ n ∈ names, reMatch pat n = true →
      (dictLookup s1 (osPathJoin dir n)).isSome = true) :
    runCycle fs fs fs dir pat s1 = ([], .ok s1) := by
  have hdel : check_for_deleted_files fs s1 = (s1, []) := by
    refine check_for_deleted_files_id fs s1 ?_
    intro e he
    obtain ⟨k, v⟩ := e
    simp [pexists, hstat k v he]
  have hmod := check_for_modified_files_id fs s1 hstat
  have hgo := check_for_new_files_go_id fs dir pat names s1 hcov
  simp [runCycle, hdel, hmod, check_for_new_files, hld, hgo]

/-! ## Pattern-matching lemmas -/

/-- A nullable pattern matches a prefix (the empty one) of anything. -/
theorem reMatchL_of_nullable (r : Regex) (l : List Char) (h : nullable r = true) :
    reMatchL r l = true := by
  cases l <;> simp [reMatchL, h]

/-- If the pattern matches `l₁` in full, it matches a prefix of `l₁ ++ l₂`:
the core of `re.match`'s match-at-the-start semantics. -/
theorem reMatchL_append_of_matchesFull :
    ∀ (l₁ : List Char) (r : Regex) (l₂ : List Char),
      matchesFull r l₁ = true → reMatchL r (l₁ ++ l₂) = true := by
  intro l₁
  induction l₁ with
  | nil =>
      intro r l₂ h
      simp [matchesFull] at h
      simpa using reMatchL_of_nullable r l₂ h
  | cons c cs ih =>
      intro r l₂ h
      simp only [matchesFull, List.foldl] at h
      simp [reMatchL, ih (rderiv r c) l₂ h]

/-! ## Watch-loop lemmas -/

/-- If the stop flag is observed true at the top of iteration `i`, at most
`i` iteration bodies run in total. -/
theorem watchLoop_stop_bound (dir : String) (pat : Regex) :
    ∀ (tr : List (Bool × FS × FS × FS)) (s : Snap) (i : Nat)
      (e : Bool × FS × FS × FS),
      tr[i]? = some e → e.1 = true → (watchLoop dir pat tr s).1 ≤ i := by
  intro tr
  induction tr with
  | nil =>
      intro s i e hget
      simp at hget
  | cons hd rest ih =>
      intro s i e hget hflag
      obtain ⟨stopf, fD, fM, fN⟩ := hd
      by_cases hstop : stopf = true
      · simp [watchLoop, hstop]
      · cases i with
        | zero =>
            simp at hget
            rw [← hget] at hflag
            simp at hflag
            cases hstop hflag
        | succ j =>
            simp only [List.getElem?_cons_succ] at hget
            rcases hrc : runCycle fD fM fN dir pat s with ⟨evs, r⟩
            rcases r with er | s1
            · simp [watchLoop, hstop, hrc]
            · have hb := ih s1 j e hget hflag
              simp only [watchLoop, hstop, if_false, hrc]
              simpa using Nat.succ_le_succ hb

/-- A filesystem with the watched directory `/w` holding one file `/w/ab`. -/
def fsAB : FS :=
  { cwd := "/", dirs := [("/w", 0)], files := [("/w/ab", 5)] }

/-! ## Claims -/

/-- C1: the claim says that after N polling cycles the snapshot's key set
equals exactly the set of matching files that currently exist in the watched
directory.  The code violates this: `get_files` keys the initial snapshot by
bare entry name while `check_for_new_files` keys by joined path, so when the
working directory is the watched directory the bare-name key keeps resolving
to an existing file, survives deletion detection, and the joined path is
added alongside it — after one full cycle with no filesystem changes the
snapshot holds two keys (`"a.txt"` and `"/w/a.txt"`) for the single existing
matching file, and stays that way.  This theorem evaluates `watch` at the
failing input and exhibits the spurious key. -/
theorem c1_snapshot_keys_diverge :
    watch "/w" patAll fsW [(false, fsW, fsW, fsW)] =
      (1, [Event.created "/w/a.txt"],
        Except.ok [("a.txt", 5), ("/w/a.txt", 5)]) ∧
    specMatchingFiles fsW "/w" patAll = ["/w/a.txt"] ∧
    "a.txt" ∉ specMatchingFiles fsW "/w" patAll := by
  refine ⟨rfl, rfl, ?_⟩
  decide

/-- C2: the claim says every snapshot key is a path consistently joined with
the watched directory and that the initial scan produces exactly the same
mapping as the creation-detection scan over the same contents.  The code
violates this: over the same directory `/w` holding `a.txt`, `get_files`
produces the bare-name mapping `[("a.txt", 5)]` (line 68 uses `file_name` as
the key) while the creation scan from an empty snapshot produces the
joined-path mapping `[("/w/a.txt", 5)]` (line 106-108). -/
theorem c2_initial_scan_key_mismatch :
    get_files fsW "/w" patAll = .ok [("a.txt", 5)] ∧
    check_for_new_files fsW "/w" patAll [] =
      (["/w/a.txt"], .ok [("/w/a.txt", 5)]) ∧
    ("a.txt", 5) ∉ ([("/w/a.txt", 5)] : Snap) := by
  refine ⟨rfl, rfl, ?_⟩
  decide

/-- C3: the claim says construction succeeds for every syntactically valid
pattern even when it does not match the empty string.  The code violates it:
`if not re.match(file_pattern, "")` (line 34-35) is truthy whenever the
valid pattern fails to match the empty string, so the perfectly valid
pattern `a` (not nullable) is rejected as "not valid".  This theorem
evaluates the constructor at the failing input. -/
theorem c3_valid_pattern_rejected :
    nullable (Regex.chr 'a') = false ∧
    matchesFull (Regex.chr 'a') ['a'] = true ∧
    pyFileWatcherInit fsW "/w" (some (Regex.chr 'a')) =
      .error .invalidPattern :=
  ⟨rfl, rfl, rfl⟩

/-- C4: construction fails with `DirectoryNotFound` for a nonexistent path,
with `NotADirectory` for an existing non-directory path, and with
`InvalidPattern` for a syntactically invalid pattern, checking the three
conditions in that order and failing fast on the first violated one. -/
theorem c4_construction_error_order (fs : FS) (d : String) (p : Option Regex) :
    (pexists fs d = false →
      pyFileWatcherInit fs d p = .error .directoryNotFound) ∧
    (pexists fs d = true → isdir fs d = false →
      pyFileWatcherInit fs d p = .error .notADirectory) ∧
    (pexists fs d = true → isdir fs d = true → p = none →
      pyFileWatcherInit fs d p = .error .invalidPattern) := by
  refine ⟨?_, ?_, ?_⟩
  · intro h1
    simp [pyFileWatcherInit, h1]
  · intro h1 h2
    simp [pyFileWatcherInit, h1, h2]
  · intro h1 h2 h3
    simp [pyFileWatcherInit, h1, h2, h3]

/-- Witness for C4: the three construction failures at concrete inputs
(`/x` does not exist in `fsE`; `/f` is a regular file in `fsF`; `/w` is a
directory in `fsW` and the pattern is syntactically invalid). -/
theorem c4_construction_error_order_witness :
    pyFileWatcherInit fsE "/x" none = .error .directoryNotFound ∧
    pyFileWatcherInit fsF "/f" none = .error .notADirectory ∧
    pyFileWatcherInit fsW "/w" none = .error .invalidPattern :=
  ⟨(c4_construction_error_order fsE "/x" none).1 rfl,
   (c4_construction_error_order fsF "/f" none).2.1 rfl rfl,
   (c4_construction_error_order fsW "/w" none).2.2 rfl rfl rfl⟩

/-- C5 counterexample: the claim as stated — for EVERY snapshot state, two
consecutive cycles with no filesystem changes dispatch zero callbacks and
leave the snapshot unchanged — is false: from the snapshot `[("x", 0)]`
against an unchanged filesystem where `x` does not exist, the first of the
two cycles dispatches a deleted callback and changes the snapshot. -/
theorem c5_counterexample :
    runCycle fsE fsE fsE "/w" patAll [("x", 0)] =
      ([Event.deleted "x"], Except.ok []) ∧
    runCycle fsE fsE fsE "/w" patAll [] = ([], Except.ok []) ∧
    ([Event.deleted "x"] ++ [] : List Event) ≠ [] := by
  refine ⟨rfl, rfl, ?_⟩
  decide

/-- C5 (amended): for every snapshot state, once one cycle has run against an
unchanged filesystem, the next cycle against the same filesystem dispatches
zero callbacks (deleted, modified or created) and leaves the snapshot
unchanged. -/
theorem c5_second_cycle_idempotent (fs : FS) (dir : String) (pat : Regex)
    (s s1 : Snap) (evs : List Event)
    (h : runCycle fs fs fs dir pat s = (evs, .ok s1)) :
    runCycle fs fs fs dir pat s1 = ([], .ok s1) := by
  obtain ⟨hstat, names, hld, hcov⟩ := runCycle_ok_invariant fs dir pat s s1 evs h
  exact runCycle_silent fs dir pat s1 names hstat hld hcov

/-- Witness for the amended C5: after the reconciling cycle on `fsW`, the
next cycle is silent. -/
theorem c5_second_cycle_idempotent_witness :
    runCycle fsW fsW fsW "/w" patAll [("a.txt", 5), ("/w/a.txt", 5)] =
      ([], .ok [("a.txt", 5), ("/w/a.txt", 5)]) :=
  c5_second_cycle_idempotent fsW "/w" patAll [("a.txt", 5)]
    [("a.txt", 5), ("/w/a.txt", 5)] [Event.created "/w/a.txt"] rfl

/-- C6: for every path in the snapshot the modification step sees (the
snapshot remaining after the deletion step), with current timestamp `m` and
stored timestamp `t`, the step updates the entry to `m` and dispatches the
on-modified callback for that path exactly when `m ≠ t` (inequality in
either direction), and leaves the entry untouched dispatching nothing when
`m = t`. -/
theorem c6_modification_iff (fs : FS) :
    ∀ (s s' : Snap) (evs : List String) (k : String) (t m : Nat),
      (s.map Prod.fst).Nodup → (k, t) ∈ s →
      check_for_modified_files fs s = (evs, .ok s') →
      stat fs k = some m →
      ((m ≠ t → (k, m) ∈ s' ∧ k ∈ evs) ∧
       (m = t → (k, t) ∈ s' ∧ k ∉ evs)) := by
  intro s
  induction s with
  | nil =>
      intro s' evs k t m hnd hmem
      simp at hmem
  | cons e rest ih =>
      obtain ⟨k₀, t₀⟩ := e
      intro s' evs k t m hnd hmem h hm
      rw [List.map_cons] at hnd
      have hnd₀ : k₀ ∉ rest.map Prod.fst := (List.nodup_cons.mp hnd).1
      have hndr : (rest.map Prod.fst).Nodup := (List.nodup_cons.mp hnd).2
      rcases hstat : stat fs k₀ with u | m₀
      · simp [check_for_modified_files, hstat] at h
      · rcases hrec : check_for_modified_files fs rest with ⟨evs₀, r₀⟩
        rcases r₀ with e₀ | s₀
        · by_cases hmt : m₀ = t₀ <;>
            simp [check_for_modified_files, hstat, hrec, hmt, Except.map] at h
        · rcases List.mem_cons.mp hmem with hhead | htail
          · obtain ⟨hk, ht⟩ := Prod.mk.injEq .. ▸ hhead
            subst hk
            subst ht
            have hmm : m = m₀ := by
              rw [hm] at hstat
              exact Option.some.injEq .. ▸ hstat
            subst hmm
            by_cases hmt : m = t
            · simp only [check_for_modified_files, hstat, hrec, hmt, if_true,
                Except.map] at h
              obtain ⟨he, hs⟩ := Prod.mk.injEq .. ▸ h
              have hs' : s' = (k, t) :: s₀ := by
                cases hs
                rfl
              subst hs'
              subst he
              refine ⟨fun hne => absurd hmt hne, fun _ => ⟨List.mem_cons_self _ _, ?_⟩⟩
              intro hk
              exact hnd₀ (check_for_modified_files_events fs rest k (by rw [hrec]; exact hk))
            · simp only [check_for_modified_files, hstat, hrec, hmt, if_false,
                Except.map] at h
              obtain ⟨he, hs⟩ := Prod.mk.injEq .. ▸ h
              have hs' : s' = (k, m) :: s₀ := by
                cases hs
                rfl
              subst hs'
              subst he
              exact ⟨fun _ => ⟨List.mem_cons_self _ _, List.mem_cons_self _ _⟩,
                fun heq => absurd heq hmt⟩
          · have hkr : k ∈ rest.map Prod.fst := by
              exact List.mem_map.mpr ⟨(k, t), htail, rfl⟩
            have hkk₀ : k ≠ k₀ := fun hkk => hnd₀ (hkk ▸ hkr)
            have hih := ih s₀ evs₀ k t m hndr htail hrec hm
            by_cases hmt : m₀ = t₀
            · simp only [check_for_modified_files, hstat, hrec, hmt, if_true,
                Except.map] at h
              obtain ⟨he, hs⟩ := Prod.mk.injEq .. ▸ h
              have hs' : s' = (k₀, t₀) :: s₀ := by
                cases hs
                rfl
              subst hs'
              subst he
              exact ⟨fun hne => ⟨List.mem_cons_of_mem _ (hih.1 hne).1, (hih.1 hne).2⟩,
                fun heq => ⟨List.mem_cons_of_mem _ (hih.2 heq).1, (hih.2 heq).2⟩⟩
            · simp only [check_for_modified_files, hstat, hrec, hmt, if_false,
                Except.map] at h
              obtain ⟨he, hs⟩ := Prod.mk.injEq .. ▸ h
              have hs' : s' = (k₀, m₀) :: s₀ := by
                cases hs
                rfl
              subst hs'
              subst he
              refine ⟨fun hne => ⟨List.mem_cons_of_mem _ (hih.1 hne).1,
                List.mem_cons_of_mem _ (hih.1 hne).2⟩,
                fun heq => ⟨List.mem_cons_of_mem _ (hih.2 heq).1, ?_⟩⟩
              intro hk
              rcases List.mem_cons.mp hk with hk | hk
              · exact hkk₀ hk
              · exact (hih.2 heq).2 hk

/-- Witness for C6: on `fsW`, a snapshot entry for `/w/a.txt` whose stored
timestamp 9 differs from the current timestamp 5 is updated to 5 and an
on-modified event is dispatched for it. -/
theorem c6_modification_iff_witness :
    ("/w/a.txt", 5) ∈ ([("/w/a.txt", 5)] : Snap) ∧
    "/w/a.txt" ∈ ["/w/a.txt"] :=
  (c6_modification_iff fsW [("/w/a.txt", 9)] [("/w/a.txt", 5)] ["/w/a.txt"]
    "/w/a.txt" 9 5 (by decide) (by decide) rfl rfl).1 (by decide)

/-- C7: the stop flag is checked at the top of every iteration before the
sleep and the three detection steps run (the fixed
deletion-then-modification-then-creation order against the single threaded
snapshot is carried by `runCycle` mirroring lines 49-53): if the flag is
observed true at the top of iteration `i`, at most `i` iteration bodies run
in total before `watch` returns — in particular, at most one more full
iteration after `stop()` sets the flag — and an iteration whose top-of-loop
check observes the flag true runs no detection step at all, returning the
snapshot unchanged with no events. -/
theorem c7_stop_checked_at_top (dir : String) (pat : Regex)
    (tr rest : List (Bool × FS × FS × FS)) (s : Snap) (i : Nat)
    (e : Bool × FS × FS × FS) (f : FS × FS × FS)
    (hget : tr[i]? = some e) (hflag : e.1 = true) :
    (watchLoop dir pat tr s).1 ≤ i ∧
    watchLoop dir pat ((true, f) :: rest) s = (0, [], Except.ok s) := by
  refine ⟨watchLoop_stop_bound dir pat tr s i e hget hflag, ?_⟩
  obtain ⟨fD, fM, fN⟩ := f
  simp [watchLoop]

/-- Witness for C7: a trace whose second iteration observes the flag true
runs at most one iteration body, and an immediately-true flag exits at once. -/
theorem c7_stop_checked_at_top_witness :
    (watchLoop "/w" patAll
      [(false, fsW, fsW, fsW), (true, fsW, fsW, fsW)] []).1 ≤ 1 ∧
    watchLoop "/w" patAll ((true, fsW, fsW, fsW) :: []) [] =
      (0, [], Except.ok []) :=
  c7_stop_checked_at_top "/w" patAll
    [(false, fsW, fsW, fsW), (true, fsW, fsW, fsW)] [] [] 1
    (true, fsW, fsW, fsW) (fsW, fsW, fsW) rfl rfl

/-- C8: if a snapshot path that survived the deletion step cannot be read
when the modification step stats it (the file disappeared between the two
steps), the error is not caught, wrapped or retried: the iteration dispatches
only the events raised before the crash, the loop runs no further iteration
regardless of the remaining trace, and the error propagates out of the
loop. -/
theorem c8_modification_error_propagates (dir : String) (pat : Regex)
    (fD fM fN : FS) (rest : List (Bool × FS × FS × FS)) (s : Snap)
    (k : String) (t : Nat)
    (hmem : (k, t) ∈ (check_for_deleted_files fD s).1)
    (hnone : stat fM k = none) :
    watchLoop dir pat ((false, fD, fM, fN) :: rest) s =
      (1, (check_for_deleted_files fD s).2.map Event.deleted ++
        (check_for_modified_files fM (check_for_deleted_files fD s).1).1.map
          Event.modified,
       Except.error ()) := by
  have herr := check_for_modified_files_error fM _ k t hmem hnone
  rcases hmod : check_for_modified_files fM (check_for_deleted_files fD s).1
    with ⟨mevs, rm⟩
  rw [hmod] at herr
  simp at herr
  subst herr
  simp [watchLoop, runCycle, hmod]

/-- Witness for C8: `/w/a.txt` exists during the deletion check (`fsW`) but
is gone when the modification step stats it (`fsE`); the loop stops after
this one iteration with the propagated error even though the trace holds
another iteration. -/
theorem c8_modification_error_propagates_witness :
    watchLoop "/w" patAll
      ((false, fsW, fsE, fsE) :: [(false, fsW, fsW, fsW)])
      [("/w/a.txt", 5)] =
      (1, (check_for_deleted_files fsW [("/w/a.txt", 5)]).2.map Event.deleted ++
        (check_for_modified_files fsE
          (check_for_deleted_files fsW [("/w/a.txt", 5)]).1).1.map
          Event.modified,
       Except.error ()) :=
  c8_modification_error_propagates "/w" patAll fsW fsE fsE
    [(false, fsW, fsW, fsW)] [("/w/a.txt", 5)] "/w/a.txt" 5 (by decide) rfl

/-- C9: the creation-detection step never changes a snapshot entry that is
already present: every existing entry, with its stored timestamp, is still
in the snapshot after the step, whatever the filesystem now says that file's
timestamp is. -/
theorem c9_creation_preserves_entries (fN : FS) (dir : String) (pat : Regex)
    (s s' : Snap) (evs : List String) (k : String) (v : Nat)
    (hmem : (k, v) ∈ s)
    (h : check_for_new_files fN dir pat s = (evs, .ok s')) :
    (k, v) ∈ s' := by
  rcases hld : listdir fN dir with u | names
  · rw [check_for_new_files, hld] at h
    simp at h
  · rw [check_for_new_files, hld] at h
    exact check_for_new_files_go_mem fN dir pat names s s' evs (k, v) h hmem

/-- Witness for C9: the snapshot entry `("/w/a.txt", 9)` survives the
creation step untouched although the file's on-disk timestamp is 5. -/
theorem c9_creation_preserves_entries_witness :
    check_for_new_files fsW "/w" patAll [("/w/a.txt", 9)] =
      ([], .ok [("/w/a.txt", 9)]) ∧
    ("/w/a.txt", 9) ∈ ([("/w/a.txt", 9)] : Snap) :=
  ⟨rfl, c9_creation_preserves_entries fsW "/w" patAll [("/w/a.txt", 9)]
    [("/w/a.txt", 9)] [] "/w/a.txt" 9 (by decide) rfl⟩

/-- C10: a directory entry counts as matching whenever the pattern matches a
(proper) prefix of its name, as `re.match` does, not only on a whole-name
match: the match test succeeds, the initial scan processes the entry as
matching (stats it and stores it), and the creation-detection step processes
it as matching (stats it, inserts it and dispatches the created callback)
when it is not yet a key. -/
theorem c10_prefix_match_counts (pat : Regex) (n : String) (l₁ l₂ : List Char)
    (fs : FS) (dir : String) (ns : List String) (files : Snap) (m : Nat)
    (hsplit : n.toList = l₁ ++ l₂) (hproper : l₂ ≠ [])
    (hfull : matchesFull pat l₁ = true) :
    reMatch pat n = true ∧
    (stat fs (osPathJoin dir n) = some m →
      get_files_go fs dir pat (n :: ns) files =
        get_files_go fs dir pat ns (dictInsert files n m)) ∧
    (dictLookup files (osPathJoin dir n) = none →
      stat fs (osPathJoin dir n) = some m →
      check_for_new_files_go fs dir pat (n :: ns) files =
        (osPathJoin dir n :: (check_for_new_files_go fs dir pat ns
            (dictInsert files (osPathJoin dir n) m)).1,
         (check_for_new_files_go fs dir pat ns
            (dictInsert files (osPathJoin dir n) m)).2)) := by
  have hre : reMatch pat n = true := by
    rw [reMatch, hsplit]
    exact reMatchL_append_of_matchesFull l₁ pat l₂ hfull
  refine ⟨hre, ?_, ?_⟩
  · intro hstat
    simp [get_files_go, hre, hstat]
  · intro hlook hstat
    simp [check_for_new_files_go, hre, hlook, hstat]

/-- Witness for C10: pattern `a` matches the proper prefix `a` of the entry
name `ab`, so both scans treat `ab` as matching. -/
theorem c10_prefix_match_counts_witness :
    reMatch (Regex.chr 'a') "ab" = true ∧
    get_files_go fsAB "/w" (Regex.chr 'a') ["ab"] [] =
      get_files_go fsAB "/w" (Regex.chr 'a') [] (dictInsert [] "ab" 5) ∧
    check_for_new_files_go fsAB "/w" (Regex.chr 'a') ["ab"] [] =
      (osPathJoin "/w" "ab" :: (check_for_new_files_go fsAB "/w" (Regex.chr 'a')
          [] (dictInsert [] (osPathJoin "/w" "ab") 5)).1,
       (check_for_new_files_go fsAB "/w" (Regex.chr 'a') []
          (dictInsert [] (osPathJoin "/w" "ab") 5)).2) := by
  obtain ⟨h1, h2, h3⟩ := c10_prefix_match_counts (Regex.chr 'a') "ab"
    ['a'] ['b'] fsAB "/w" [] [] 5 rfl (by simp) rfl
  exact ⟨h1, h2 rfl, h3 rfl rfl⟩
